import Mathlib

/-!
# Verification of the sos dqlite multi-backend collection orchestrator

Shallow embedding of `sos/report/plugins/dqlite.py` (plus the redaction
rules of `docker.py`, `ceph_common.py` and `microk8s.py`) and proofs of the
specification claims about it.

The embedding models:
* the backend registry (the `packages` dict of `dqlite.setup`),
* the query planner (`dqlite.base_collection`),
* the two transports (`dqlite.run_batch_dqlite_queries`),
* the per-backend extension hooks (`dqlite.microceph_collection`,
  `dqlite.microk8s_collection`, the no-op hooks),
* the topology-file address scanner (`re.findall` of the pattern
  `Address:\s*(\d+\.\d+\.\d+\.\d+:\d+)`),
* the redaction regexes of `dqlite.postproc`, `Docker.postproc` and
  `CephCommon.postproc`, with the framework substitution primitives
  (`do_file_sub`, `do_cmd_output_sub`, `do_path_regex_sub`) modelled from
  the spec as line- respectively whole-output textual substitution.
-/

namespace Sos

/-! ## Generic character/string scanning helpers -/

/-- Python `\s` whitespace class, as used by the `re` module on ASCII text. -/
def isPySpace (c : Char) : Bool :=
  c = ' ' || c = '\t' || c = '\n' || c = '\r' || c = '\x0b' || c = '\x0c'

/-- Greedy span: longest prefix of characters satisfying `p`, and the rest.
Models a greedy `X*` regex atom whose element class is disjoint from what
follows (no backtracking is ever needed in the patterns embedded here). -/
def spanP (p : Char → Bool) : List Char → List Char × List Char
  | [] => ([], [])
  | c :: t =>
    if p c then
      let s := spanP p t
      (c :: s.1, s.2)
    else ([], c :: t)

theorem spanP_append (p : Char → Bool) (l : List Char) :
    (spanP p l).1 ++ (spanP p l).2 = l := by
  induction l with
  | nil => rfl
  | cons c t ih =>
    by_cases h : p c
    · simp [spanP, h, ih]
    · simp [spanP, h]

theorem spanP_length (p : Char → Bool) (l : List Char) :
    (spanP p l).2.length ≤ l.length := by
  have h := congrArg List.length (spanP_append p l)
  simp only [List.length_append] at h
  omega

/-- `spanP` on an all-`p` block followed by a non-`p` head splits exactly at
the block boundary. -/
theorem spanP_exact (p : Char → Bool) (a b : List Char)
    (ha : ∀ c ∈ a, p c = true) (hb : ∀ c t, b = c :: t → p c = false) :
    spanP p (a ++ b) = (a, b) := by
  induction a with
  | nil =>
    cases b with
    | nil => rfl
    | cons c t => simp [spanP, hb c t rfl]
  | cons c a' ih =>
    have hc : p c = true := ha c (by simp)
    have ih' := ih (fun x hx => ha x (by simp [hx]))
    simp [spanP, hc, ih']

/-! ## Backend registry (`dqlite.setup`'s `packages` dict) -/

structure BackendCfg where
  db_path : String
  socket : String
  sql_cmd : Option String
  socket_endpoint : String
  deriving DecidableEq

/-- The fixed five-backend enumeration, in the dict's iteration order. -/
def packages : List String :=
  ["microceph", "microovn", "microcloud", "microk8s", "lxd"]

/-- The registry: configuration of each backend (`dqlite.setup`). The
catch-all branch is never consulted for an identifier outside `packages`. -/
def registryCfg : String → BackendCfg
  | "microceph" =>
    { db_path := "/var/snap/microceph/common/state/database"
      socket := "/var/snap/microceph/common/state/control.socket"
      sql_cmd := some "microceph cluster sql"
      socket_endpoint := "microceph/core/internal/sql" }
  | "microovn" =>
    { db_path := "/var/snap/microovn/common/state/database"
      socket := "/var/snap/microovn/common/state/control.socket"
      sql_cmd := some "microovn cluster sql"
      socket_endpoint := "microovn/core/internal/sql" }
  | "microcloud" =>
    { db_path := "/var/snap/microcloud/common/state/database"
      socket := "/var/snap/microcloud/common/state/control.socket"
      sql_cmd := some "microcloud sql"
      socket_endpoint := "microcloud/core/internal/sql" }
  | "microk8s" =>
    { db_path := "/var/snap/microk8s/current/var/kubernetes/backend"
      socket := "/var/snap/microk8s/current/var/kubernetes/backend/kine.sock:12379"
      sql_cmd := none
      socket_endpoint := "microk8s/core/internal/sql" }
  | "lxd" =>
    { db_path := "/var/snap/lxd/common/lxd/database/global"
      socket := "/var/snap/lxd/common/lxd/unix.socket"
      sql_cmd := some "lxd sql local"
      socket_endpoint := "lxd/internal/sql" }
  | _ =>
    { db_path := "", socket := "", sql_cmd := none, socket_endpoint := "" }

/-! ## JSON payload construction (`dqlite.run_batch_dqlite_queries`) -/

/-- The dict passed to `json.dumps`:
`{"query": query, "database": "local"} if pkg == "lxd" else {"query": query}`. -/
def queryPayload (pkg : String) (query : String) : List (String × String) :=
  if pkg = "lxd" then [("query", query), ("database", "local")]
  else [("query", query)]

/-- `json.dumps` escaping of one character of a string value. -/
def jsonEscapeChar (c : Char) : List Char :=
  if c = '"' then ['\\', '"']
  else if c = '\\' then ['\\', '\\']
  else if c = '\n' then ['\\', 'n']
  else [c]

/-- `json.dumps` of a string. -/
def jsonDumps (s : String) : String :=
  ⟨'"' :: (s.data.flatMap jsonEscapeChar ++ ['"'])⟩

/-- `json.dumps` of a string-valued dict (Python's default separators). -/
def jsonDumpsObj (kvs : List (String × String)) : String :=
  "\x7b" ++
    String.intercalate ", "
      (kvs.map (fun kv => jsonDumps kv.1 ++ ": " ++ jsonDumps kv.2)) ++
    "\x7d"

/-- The HTTP header constant of `run_batch_dqlite_queries`. -/
def contentHeader : String := "Content-Type: application/json"

/-- The `curl_cmd` f-string of `run_batch_dqlite_queries` (the Python
triple-quoted string keeps its leading/trailing newlines and the
continuation-line indentation). -/
def curl_cmd (cfg : BackendCfg) : String :=
  "\n            curl -s --unix-socket " ++ cfg.socket ++ " " ++
    "                -X POST " ++ cfg.socket_endpoint ++ " " ++
    "                -H \"" ++ contentHeader ++ "\" " ++
    "                -d\n            "

/-! ## Collection requests (`add_cmd_output` registrations) -/

/-- One `add_cmd_output` registration: the command to run, the suggested
output filename, and the target subdirectory. -/
structure CmdRequest where
  cmd : String
  suggest_filename : String
  subdir : String
  deriving DecidableEq

/-- `dqlite.run_batch_dqlite_queries`: for each `(query, table)` pair,
register the socket-transport command, and — when the backend configuration
declares a SQL CLI command — additionally the CLI-wrapper command. -/
def run_batch_dqlite_queries (pkg : String) (cfg : BackendCfg)
    (queries tables : List String) : List CmdRequest :=
  (queries.zip tables).flatMap (fun qt =>
    let query := qt.1
    let table := qt.2
    let query_json := jsonDumpsObj (queryPayload pkg query)
    let socket_cmd := curl_cmd cfg ++ " \x27" ++ query_json ++ "\x27"
    { cmd := socket_cmd
      suggest_filename := pkg ++ "_dqlite_" ++ table
      subdir := pkg } ::
      (match cfg.sql_cmd with
       | some sql_cmd =>
         [{ cmd := sql_cmd ++ " " ++ jsonDumps query
            suggest_filename := sql_cmd ++ "_" ++ table
            subdir := pkg }]
       | none => []))

/-! ## Query planner (`dqlite.base_collection`) -/

/-- 20 spaces: the continuation-line indentation kept inside the Python
multi-line string literals of `base_collection`. -/
def ind20 : String := "                    "

/-- 16 spaces: the closing-line indentation of the `config` query literal. -/
def ind16 : String := "                "

def schemaQuery : String := "SELECT * FROM sqlite_master WHERE type=\"table\";"

def tokenRecordsQuery : String :=
  "SELECT id, name, expiry_date FROM core_token_records;"

def clusterMembersQuery : String :=
  "SELECT id, name, address, schema_internal, " ++ ind20 ++
    "schema_external, heartbeat, role, api_extensions " ++ ind20 ++
    "FROM core_cluster_members;"

def configQuery : String :=
  "SELECT * FROM config WHERE NOT ( " ++ ind20 ++
    "key LIKE \"%keyring%\" OR " ++ ind20 ++
    "key LIKE \"%ca_cert%\" OR " ++ ind20 ++
    "key LIKE \"%ca_key%\" " ++ ind16 ++ ");"

def servicesQuery : String := "SELECT * FROM services;"

/-- The `queries` list built by `base_collection` (after its early
`return` for microk8s: that backend runs no batch at all, see
`base_query_requests`). -/
def base_queries (pkg : String) : List String :=
  let queries := [schemaQuery]
  let queries :=
    if pkg ∈ (["lxd"] : List String) then queries
    else queries ++ [tokenRecordsQuery, clusterMembersQuery]
  let queries :=
    if pkg ∈ (["microcloud"] : List String) then queries
    else queries ++ [configQuery]
  if pkg ∈ (["microceph", "microovn"] : List String) then
    queries ++ [servicesQuery]
  else queries

/-- The `tables` list built by `base_collection`, parallel to
`base_queries`. -/
def base_tables (pkg : String) : List String :=
  let tables := ["schema"]
  let tables :=
    if pkg ∈ (["lxd"] : List String) then tables
    else tables ++ ["token_records", "core_cluster_members"]
  let tables :=
    if pkg ∈ (["microcloud"] : List String) then tables
    else tables ++ ["config"]
  if pkg ∈ (["microceph", "microovn"] : List String) then
    tables ++ ["services"]
  else tables

/-- The `add_dir_listing` registration of `base_collection`. The underlying
listing command is owned by the framework; only the suggested filename and
subdirectory are fixed by the plugin. -/
def dirListingRequest (pkg : String) (cfg : BackendCfg) : CmdRequest :=
  { cmd := "ls " ++ cfg.db_path
    suggest_filename := "ls_" ++ pkg ++ "_dqlite_dir"
    subdir := pkg }

/-- The `add_copy_spec` paths of `base_collection`. -/
def base_copy_specs (cfg : BackendCfg) : List String :=
  [cfg.db_path ++ "/info.yaml",
   cfg.db_path ++ "/cluster.yaml",
   cfg.db_path ++ "/../daemon.yaml"]

/-- The batch of query registrations of `base_collection`: for microk8s the
function returns right after the listing/copy step (the early `return`), so
no query is registered; otherwise the composed `queries`/`tables` plan is
handed to `run_batch_dqlite_queries`. -/
def base_query_requests (pkg : String) (cfg : BackendCfg) : List CmdRequest :=
  if pkg = "microk8s" then []
  else run_batch_dqlite_queries pkg cfg (base_queries pkg) (base_tables pkg)

/-- All `add_cmd_output` registrations of `dqlite.base_collection`. -/
def base_collection (pkg : String) (cfg : BackendCfg) : List CmdRequest :=
  dirListingRequest pkg cfg :: base_query_requests pkg cfg

/-! ## Extension hooks -/

/-- `dqlite.microceph_collection`. -/
def microceph_collection (pkg : String) (cfg : BackendCfg) : List CmdRequest :=
  run_batch_dqlite_queries pkg cfg
    ["SELECT * FROM disks;",
     "SELECT * FROM client_config;",
     "SELECT * FROM remote;"]
    ["disks", "client_config", "remote"]

/-! ### The topology-file address scanner

`re.findall(r'Address:\s*(\d+\.\d+\.\d+\.\d+:\d+)', cluster)`: every
character class in the pattern is disjoint from its successor, so the
greedy scan below is exactly the Python engine's behaviour. The scan over
start positions uses fuel (the input length), which always suffices since
every step consumes at least one character. -/

/-- One or more digits (`\d+`), greedy. -/
def digits (l : List Char) : Option (List Char × List Char) :=
  let s := spanP Char.isDigit l
  if s.1.isEmpty then none else some s

/-- The captured group `(\d+\.\d+\.\d+\.\d+:\d+)` at the current position:
returns the captured address and the rest of the input. -/
def parseAddr (l : List Char) : Option (List Char × List Char) := do
  let (d1, r1) ← digits l
  match r1 with
  | '.' :: r1' => do
    let (d2, r2) ← digits r1'
    match r2 with
    | '.' :: r2' => do
      let (d3, r3) ← digits r2'
      match r3 with
      | '.' :: r3' => do
        let (d4, r4) ← digits r3'
        match r4 with
        | ':' :: r4' => do
          let (d5, r5) ← digits r4'
          pure (d1 ++ '.' :: d2 ++ '.' :: d3 ++ '.' :: d4 ++ ':' :: d5, r5)
        | _ => none
      | _ => none
    | _ => none
  | _ => none

/-- Try the whole pattern anchored at the current position:
`Address:` then `\s*` then the captured address group. -/
def matchAddressAt (l : List Char) : Option (List Char × List Char) :=
  if "Address:".data.isPrefixOf l then
    parseAddr (spanP isPySpace (l.drop 8)).2
  else none

/-- The `re.findall` scan over start positions (non-overlapping matches;
scanning resumes after each match). -/
def findAddrsGo : Nat → List Char → List (List Char)
  | 0, _ => []
  | _ + 1, [] => []
  | fuel + 1, c :: t =>
    match matchAddressAt (c :: t) with
    | some (addr, rest) => addr :: findAddrsGo fuel rest
    | none => findAddrsGo fuel t

/-- `re.findall(r'Address:\s*(\d+\.\d+\.\d+\.\d+:\d+)', cluster)`. -/
def findAddresses (cluster : String) : List String :=
  (findAddrsGo cluster.data.length cluster.data).map (fun a => ⟨a⟩)

/-- `dqlite.microk8s_collection`. The topology file's readability is an
input: `some content` when `open`/`read` succeed, `none` when they raise
(`err` is the exception's text). Returns the alerts raised and the
`add_cmd_output` registrations, in order. -/
def microk8s_collection (pkg : String) (cfg : BackendCfg)
    (topology : Option String) (err : String) :
    List String × List CmdRequest :=
  let db_path := cfg.db_path
  let dqlite_bin := "/snap/microk8s/current/bin/dqlite"
  let cert := db_path ++ "/cluster.crt"
  let keyfile := db_path ++ "/cluster.key"
  let servers := db_path ++ "/cluster.yaml"
  let dqlite_cmd :=
    dqlite_bin ++ " -c " ++ cert ++ " -k " ++ keyfile ++
      " -s file://" ++ servers ++ " k8s"
  let queries : List String :=
    ["\".cluster\"", "\".cluster\" -f json", "\".leader\""]
  let suggested_names := queries.map (fun query => pkg ++ "_dqlite_" ++ query)
  let step :=
    match topology with
    | some cluster =>
      let nodes := findAddresses cluster
      (([] : List String),
       queries ++ nodes.map (fun node => "\".describe " ++ node ++ "\" -f json"),
       suggested_names ++ nodes.map (fun node => pkg ++ "_dqlite_.describe_" ++ node))
    | none =>
      (["Failed to parse " ++ servers ++ ": " ++ err], queries, suggested_names)
  (step.1,
   (step.2.1.zip step.2.2).map (fun qn =>
     { cmd := dqlite_cmd ++ " " ++ qn.1
       suggest_filename := qn.2
       subdir := pkg }))

/-- The `add_copy_spec` paths of `microk8s_collection`. -/
def microk8s_copy_specs (cfg : BackendCfg) : List String :=
  ["/var/snap/microk8s/current/credentials/client.config",
   cfg.db_path ++ "/failure-domain"]

/-- The per-backend extension hook dispatch (`config.get("collection")`):
microceph and microk8s have real hooks; microovn, microcloud and lxd are
no-ops. Returns (alerts, registrations). -/
def collection_hook (pkg : String) (cfg : BackendCfg)
    (topology : Option String) (err : String) :
    List String × List CmdRequest :=
  match pkg with
  | "microceph" => ([], microceph_collection pkg cfg)
  | "microk8s" => microk8s_collection pkg cfg topology err
  | _ => ([], [])

/-- Every `add_cmd_output` registration of one backend's run
(`base_collection` followed by its extension hook). -/
def backend_requests (pkg : String) (topology : Option String)
    (err : String) : List CmdRequest :=
  base_collection pkg (registryCfg pkg) ++
    (collection_hook pkg (registryCfg pkg) topology err).2

/-- The query-result registrations of one backend's run: the socket and
CLI transports of the base plan plus the extension hook's, excluding the
directory-listing step. -/
def query_requests (pkg : String) (topology : Option String)
    (err : String) : List CmdRequest :=
  base_query_requests pkg (registryCfg pkg) ++
    (collection_hook pkg (registryCfg pkg) topology err).2

/-- All suggested output filenames of one backend's run. -/
def allSuggestedNames (pkg : String) (topology : Option String)
    (err : String) : List String :=
  (backend_requests pkg topology err).map (fun r => r.suggest_filename)

/-- The addresses the run extracts from the topology file: only the
microk8s hook reads it. -/
def extractedNodes (pkg : String) (topology : Option String) : List String :=
  if pkg = "microk8s" then
    match topology with
    | some cluster => findAddresses cluster
    | none => []
  else []

/-- `dqlite.setup`: iterate the registry in order and collect for every
installed backend. -/
def setup_requests (installed : String → Bool) (topology : Option String)
    (err : String) : List CmdRequest :=
  packages.flatMap (fun pkg =>
    if installed pkg then backend_requests pkg topology err else [])

/-! ## Redaction stage

The substitution primitives `do_file_sub` / `do_path_regex_sub` /
`do_cmd_output_sub` live in the plugin framework, outside this repository's
sources; they are modelled from the spec (§4.5, §2): a RedactionRule is a
(target-selector, pattern, replacement) triple, the selector picks a file
path or a command-output glob, and the substitution is textual — for the
line-anchored (`^...`) rules it rewrites each line of the artifact
independently. The regexes and replacement templates themselves are taken
verbatim from the plugin sources. -/

/-- Split a text into its lines (Python `str.split("\n")` shape: a trailing
newline yields a final empty line). -/
def splitLines : List Char → List (List Char)
  | [] => [[]]
  | c :: t =>
    if c = '\n' then [] :: splitLines t
    else
      match splitLines t with
      | [] => [[c]]
      | ln :: rest => (c :: ln) :: rest

/-- Reassemble lines with newlines. -/
def joinLines (ls : List (List Char)) : List Char :=
  List.intercalate ['\n'] ls

/-- Modelled from the spec: a line-anchored substitution rule applied to a
whole artifact rewrites every line independently (spec §4.5: "any line
matching ... has its value portion replaced", line count and order
preserved). -/
def subLines (f : List Char → List Char) (text : List Char) : List Char :=
  joinLines ((splitLines text).map f)

/-! ### `dqlite.postproc`: the credentials-file rule

Regex (built from `protect_keys`):
`^\s*(#?\s*(certificate-authority-data|client-certificate-data|client-key-data):\s*)(\S.*)`
with replacement `\1 ******`. Every greedy atom's class is disjoint from
its successor (spaces vs `#`/key letters, `:` vs spaces, `\s` vs `\S`), so
the deterministic scan below is the Python engine's behaviour. -/

/-- The `protect_keys` alternation, in source order. -/
def credKeys : List (List Char) :=
  ["certificate-authority-data".data,
   "client-certificate-data".data,
   "client-key-data".data]

/-- The alternation `(certificate-authority-data|client-certificate-data|client-key-data)`
at the current position. -/
def tryKeys (l : List Char) : Option (List Char × List Char) :=
  match credKeys.find? (fun k => k.isPrefixOf l) with
  | some k => some (k, l.drop k.length)
  | none => none

/-- Match the whole regex against one line, returning
(leading whitespace (outside group 1), group 1, group 3): greedy `^\s*`,
the optional `#`, greedy `\s*`, the key alternation, `:`, greedy `\s*`,
then the non-empty `(\S.*)` remainder. -/
def matchCred (l : List Char) : Option (List Char × List Char × List Char) :=
  let s0 := spanP isPySpace l
  let hb : List Char × List Char :=
    if s0.2.head? = some '#' then (['#'], s0.2.tail) else ([], s0.2)
  let s2 := spanP isPySpace hb.2
  match tryKeys s2.2 with
  | none => none
  | some (k, r4) =>
    if r4.head? = some ':' then
      let s3 := spanP isPySpace r4.tail
      if s3.2 = [] then none
      else some (s0.1, hb.1 ++ s2.1 ++ k ++ ':' :: s3.1, s3.2)
    else none

/-- `re.sub` of the credentials regex on one line: the match (which spans
the whole line, group 3 being `\S.*`) is replaced by `\1 ******`; a
non-matching line is unchanged. -/
def subCredLine (l : List Char) : List Char :=
  match matchCred l with
  | some (_, g1, _) => g1 ++ " ******".data
  | none => l

/-- The `do_file_sub` call of `dqlite.postproc` applied to the credentials
file's content. -/
def subCredFile (text : List Char) : List Char :=
  subLines subCredLine text

/-! ### `Docker.postproc`: the command-output env rule

Regex `(?P<var>(pass|key|secret|PASS|KEY|SECRET).*?)=(?P<value>.*?)"` with
replacement `\g<var>=********"`. The `.*?` atoms are lazy and `.` does not
cross a newline; the engine backtracks a failed `(?P<value>.*?)"` by letting
`(?P<var>.*?)=` extend to the next `=`. The six alternation literals start
with six distinct characters, so at most one alternative applies at any
position. -/

/-- The six alternation literals, in source order. -/
def dockerLits : List (List Char) :=
  ["pass".data, "key".data, "secret".data,
   "PASS".data, "KEY".data, "SECRET".data]

/-- The alternation at the current position. -/
def litAt (l : List Char) : Option (List Char × List Char) :=
  match dockerLits.find? (fun k => k.isPrefixOf l) with
  | some k => some (k, l.drop k.length)
  | none => none

/-- `(?P<value>.*?)"`: the lazy value up to the first `"`, failing on a
newline or end of input. Returns (value, rest after the quote). -/
def findQuote : List Char → Option (List Char × List Char)
  | [] => none
  | c :: t =>
    if c = '"' then some ([], t)
    else if c = '\n' then none
    else (findQuote t).map (fun vr => (c :: vr.1, vr.2))

/-- `.*?=(?P<value>.*?)"` after the literal: lazily find a `=` whose value
completes with a `"` (backtracking to later `=`s when it does not), never
crossing a newline. Returns (the chars between literal and `=`, rest after
the closing quote). -/
def matchTail : List Char → Option (List Char × List Char)
  | [] => none
  | c :: t =>
    if c = '\n' then none
    else if c = '=' then
      match findQuote t with
      | some (_, r) => some ([], r)
      | none => (matchTail t).map (fun vr => ('=' :: vr.1, vr.2))
    else (matchTail t).map (fun vr => (c :: vr.1, vr.2))

/-- The `re.sub` scan of the whole command output: at each position try the
pattern; on a match emit `\g<var>=********"` and resume after the consumed
text, else copy one character. Fuel-based (the input length always
suffices: every step consumes at least one character). -/
def dockerSubGo : Nat → List Char → List Char
  | 0, l => l
  | _ + 1, [] => []
  | fuel + 1, c :: t =>
    match litAt (c :: t) with
    | some (lit, rest) =>
      match matchTail rest with
      | some (vt, r) =>
        lit ++ vt ++ '=' :: ("********".data ++ '"' :: dockerSubGo fuel r)
      | none => c :: dockerSubGo fuel t
    | none => c :: dockerSubGo fuel t

/-- `re.sub(env_regexp, r'\g<var>=********"', output)`. -/
def dockerSub (l : List Char) : List Char :=
  dockerSubGo l.length l

/-- Modelled from the spec: `do_cmd_output_sub`'s first argument is a glob
over collected command names; `*inspect*` selects commands whose name
contains `inspect`. -/
def globStarMatch (inner : String) (cmdName : String) : Bool :=
  decide (inner.data <:+: cmdName.data)

/-- `Docker.postproc` applied to one collected command's output. -/
def dockerPostprocCmdOutput (cmdName : String) (out : List Char) : List Char :=
  if globStarMatch "inspect" cmdName then dockerSub out else out

/-! ### `CephCommon.postproc`: the config-file rule

Regex `(^(rgw keystone admin password)\s*=\s*)(.*)` with replacement
`\1*********`, applied by `do_path_regex_sub` to the copied file
`/etc/ceph/ceph.conf` — and to nothing else: `CephCommon.postproc`
registers no command-output rule, so collected command outputs pass the
redaction stage unchanged. -/

def cephKey : List Char := "rgw keystone admin password".data

/-- Match the ceph config regex against one line, returning group 1 and
group 3 (group 2 is the key itself, group 3 the greedy `(.*)` remainder):
the anchored key literal, greedy `\s*`, `=`, greedy `\s*`, then the rest of
the line. -/
def matchCephLine (l : List Char) : Option (List Char × List Char) :=
  if cephKey.isPrefixOf l then
    let s1 := spanP isPySpace (l.drop cephKey.length)
    if s1.2.head? = some '=' then
      let s2 := spanP isPySpace s1.2.tail
      some (cephKey ++ s1.1 ++ '=' :: s2.1, s2.2)
    else none
  else none

/-- `re.sub` of the ceph regex on one line. -/
def cephSubLine (l : List Char) : List Char :=
  match matchCephLine l with
  | some (g1, _) => g1 ++ "*********".data
  | none => l

/-- `CephCommon.postproc` applied to a copied file at `path`. -/
def cephPostprocFile (path : String) (content : List Char) : List Char :=
  if path = "/etc/ceph/ceph.conf" then subLines cephSubLine content
  else content

/-- Modelled from the spec: the redaction stage routes command outputs only
through command-output rules; `CephCommon.postproc` declares none, so every
collected command output is persisted as collected. -/
def cephPostprocCmdOutput (_cmdName : String) (out : List Char) : List Char :=
  out

/-! ## Execution model

Modelled from the spec (§6): the command-execution collaborator runs each
registered command producing `(exit_status, stdout_text)`, and the output
sink persists every collected result — a result is emitted for every
registration, whatever the statuses of the other registrations were. -/

def executeAll (run : String → Int × String) (reqs : List CmdRequest) :
    List (CmdRequest × Int × String) :=
  reqs.map (fun r => (r, run r.cmd))

/-- The microk8s `dqlite_cmd` CLI invocation string, as assembled by
`microk8s_collection` from the registry's `db_path`. -/
def mk8s_dqlite_cmd : String :=
  "/snap/microk8s/current/bin/dqlite" ++ " -c " ++
    ((registryCfg "microk8s").db_path ++ "/cluster.crt") ++ " -k " ++
    ((registryCfg "microk8s").db_path ++ "/cluster.key") ++ " -s file://" ++
    ((registryCfg "microk8s").db_path ++ "/cluster.yaml") ++ " k8s"

end Sos

open Sos

/-! ## General helper lemmas -/

theorem string_append_cancel_left {p a b : String} (h : p ++ a = p ++ b) :
    a = b := by
  obtain ⟨lp⟩ := p
  obtain ⟨la⟩ := a
  obtain ⟨lb⟩ := b
  have h2 : lp ++ la = lp ++ lb := congrArg String.data h
  exact congrArg String.mk (List.append_cancel_left h2)

theorem string_ne_append_of_take_ne (p a c : String) (n : Nat)
    (hn : n ≤ p.data.length) (hne : p.data.take n ≠ c.data.take n) :
    p ++ a ≠ c := by
  intro h
  apply hne
  have h2 : p.data ++ a.data = c.data := congrArg String.data h
  calc p.data.take n
      = (p.data ++ a.data).take n := (List.take_append_of_le_length hn).symm
    _ = c.data.take n := by rw [h2]

theorem not_prefix_append {k l : List Char} (X : List Char) (n : Nat)
    (hk : n ≤ k.length) (hl : n ≤ l.length) (hne : k.take n ≠ l.take n) :
    ¬ (k <+: l ++ X) := by
  rintro ⟨t, ht⟩
  apply hne
  have h2 := congrArg (List.take n) ht
  rwa [List.take_append_of_le_length hk, List.take_append_of_le_length hl]
    at h2

/-! ## Claim C2 -/

/-- C2 counterexample: the claim exempts only the divergent backend
(microk8s) from the membership/token queries, but the code
(`if pkg not in ("lxd",)`) also skips them for lxd: lxd is in the
enumeration, is not microk8s, and its plan contains neither the
`token_records` nor the `core_cluster_members` label (nor the
corresponding query texts). -/
theorem claim_C2_counterexample :
    "lxd" ∈ packages ∧ "lxd" ≠ "microk8s" ∧
    "token_records" ∉ base_tables "lxd" ∧
    "core_cluster_members" ∉ base_tables "lxd" ∧
    tokenRecordsQuery ∉ base_queries "lxd" ∧
    clusterMembersQuery ∉ base_queries "lxd" := by
  decide

/-- C2 (amended): for every backend in the enumeration except microk8s and
lxd, the plan contains the cluster-membership/token-records queries labeled
`token_records` and `core_cluster_members`; for the divergent backend
(microk8s) planning short-circuits after the directory-listing/file-copy
step and registers no queries at all. -/
theorem claim_C2_amended :
    (∀ pkg ∈ ["microceph", "microovn", "microcloud"],
      "token_records" ∈ base_tables pkg ∧
      "core_cluster_members" ∈ base_tables pkg ∧
      tokenRecordsQuery ∈ base_queries pkg ∧
      clusterMembersQuery ∈ base_queries pkg) ∧
    base_query_requests "microk8s" (registryCfg "microk8s") = [] := by
  decide

/-! ## Claim C3 -/

/-- C3: for every backend of the enumeration and every query, the socket
transport's JSON payload dict contains exactly the key `query` — except for
lxd, whose payload contains exactly the keys `query` and `database`, the
latter bound to the constant `"local"`. No payload ever carries any other
field. -/
theorem claim_C3 (pkg : String) (hpkg : pkg ∈ packages) (query : String) :
    (pkg ≠ "lxd" → queryPayload pkg query = [("query", query)]) ∧
    (pkg = "lxd" →
      queryPayload pkg query = [("query", query), ("database", "local")]) := by
  refine ⟨fun hne => ?_, fun heq => ?_⟩
  · simp [queryPayload, hne]
  · simp [queryPayload, heq]

/-- C3 witness: evaluated at lxd and at microceph with a concrete query. -/
theorem claim_C3_witness :
    queryPayload "lxd" "SELECT * FROM config;" =
      [("query", "SELECT * FROM config;"), ("database", "local")] ∧
    queryPayload "microceph" "SELECT * FROM config;" =
      [("query", "SELECT * FROM config;")] :=
  ⟨(claim_C3 "lxd" (by decide) "SELECT * FROM config;").2 rfl,
   (claim_C3 "microceph" (by decide) "SELECT * FROM config;").1 (by decide)⟩

/-! ## Claim C8 -/

/-- The two-line topology file of claim C8. -/
def c8Topology : String := "Address: 10.0.0.1:7000\nAddress: 10.0.0.2:7000"

/-- C8: on a topology file holding exactly the lines
`Address: 10.0.0.1:7000` and `Address: 10.0.0.2:7000`, the microk8s
extension hook raises no alert and registers exactly five queries, in
order: the two fixed cluster-status queries, the fixed leader query, then
one `.describe`-labeled query per discovered peer — the first parameterized
with `10.0.0.1:7000`, the second with `10.0.0.2:7000` — and nothing else. -/
theorem claim_C8 :
    microk8s_collection "microk8s" (registryCfg "microk8s")
        (some c8Topology) "" =
      ([],
       [{ cmd := mk8s_dqlite_cmd ++ " \".cluster\"",
          suggest_filename := "microk8s_dqlite_\".cluster\"",
          subdir := "microk8s" },
        { cmd := mk8s_dqlite_cmd ++ " \".cluster\" -f json",
          suggest_filename := "microk8s_dqlite_\".cluster\" -f json",
          subdir := "microk8s" },
        { cmd := mk8s_dqlite_cmd ++ " \".leader\"",
          suggest_filename := "microk8s_dqlite_\".leader\"",
          subdir := "microk8s" },
        { cmd := mk8s_dqlite_cmd ++ " \".describe 10.0.0.1:7000\" -f json",
          suggest_filename := "microk8s_dqlite_.describe_10.0.0.1:7000",
          subdir := "microk8s" },
        { cmd := mk8s_dqlite_cmd ++ " \".describe 10.0.0.2:7000\" -f json",
          suggest_filename := "microk8s_dqlite_.describe_10.0.0.2:7000",
          subdir := "microk8s" }]) := by
  set_option maxRecDepth 100000 in decide

/-! ## Claim C9 -/

/-- C9: when the topology file cannot be read (the `open`/`read` raises,
with any exception text `e`), the microk8s hook records exactly one
non-fatal alert whose message names the topology file, registers zero
`.describe` queries, and still registers exactly the three fixed
cluster/leader queries. The hook is a total function of its inputs — the
failure is absorbed into the alert, never propagated. -/
theorem claim_C9 (e : String) :
    (microk8s_collection "microk8s" (registryCfg "microk8s") none e).1 =
      ["Failed to parse /var/snap/microk8s/current/var/kubernetes/backend/cluster.yaml: " ++ e] ∧
    "/var/snap/microk8s/current/var/kubernetes/backend/cluster.yaml".data <:+:
      ("Failed to parse /var/snap/microk8s/current/var/kubernetes/backend/cluster.yaml: " ++ e).data ∧
    (microk8s_collection "microk8s" (registryCfg "microk8s") none e).2 =
      [{ cmd := mk8s_dqlite_cmd ++ " \".cluster\"",
         suggest_filename := "microk8s_dqlite_\".cluster\"",
         subdir := "microk8s" },
       { cmd := mk8s_dqlite_cmd ++ " \".cluster\" -f json",
         suggest_filename := "microk8s_dqlite_\".cluster\" -f json",
         subdir := "microk8s" },
       { cmd := mk8s_dqlite_cmd ++ " \".leader\"",
         suggest_filename := "microk8s_dqlite_\".leader\"",
         subdir := "microk8s" }] := by
  set_option maxRecDepth 100000 in
  refine ⟨rfl, ?_, rfl⟩
  refine ⟨"Failed to parse ".data, (": " ++ e).data, ?_⟩
  show _ = (("Failed to parse " ++
    "/var/snap/microk8s/current/var/kubernetes/backend/cluster.yaml" ++
    ": " ++ e) : String).data
  simp [String.data_append, List.append_assoc]

/-- C9 witness: evaluated at a concrete exception text. -/
theorem claim_C9_witness :
    (microk8s_collection "microk8s" (registryCfg "microk8s") none
        "[Errno 2] No such file or directory").1 =
      ["Failed to parse /var/snap/microk8s/current/var/kubernetes/backend/cluster.yaml: [Errno 2] No such file or directory"] :=
  (claim_C9 "[Errno 2] No such file or directory").1

/-! ## Claim C10 -/

/-- C10: for every backend configuration declaring a SQL CLI command and
every `(query, table)` pair of the plan handed to the batch runner, the
batch registers both the socket-transport command and the CLI-wrapper
command for that query; and for every behaviour of the command-execution
collaborator (any statuses, including non-zero ones), executing the batch
emits one result per registration — the CLI result among them — so neither
transport's outcome suppresses the other's output. -/
theorem claim_C10 (pkg : String) (cfg : BackendCfg) (sql : String)
    (hsql : cfg.sql_cmd = some sql) (queries tables : List String)
    (query table : String) (hmem : (query, table) ∈ queries.zip tables) :
    ({ cmd := curl_cmd cfg ++ " \x27" ++
          jsonDumpsObj (queryPayload pkg query) ++ "\x27",
       suggest_filename := pkg ++ "_dqlite_" ++ table,
       subdir := pkg } : CmdRequest) ∈
        run_batch_dqlite_queries pkg cfg queries tables ∧
    ({ cmd := sql ++ " " ++ jsonDumps query,
       suggest_filename := sql ++ "_" ++ table,
       subdir := pkg } : CmdRequest) ∈
        run_batch_dqlite_queries pkg cfg queries tables ∧
    ∀ run : String → Int × String,
      (executeAll run (run_batch_dqlite_queries pkg cfg queries tables)).map
          Prod.fst =
        run_batch_dqlite_queries pkg cfg queries tables := by
  refine ⟨?_, ?_, ?_⟩
  · exact List.mem_flatMap.mpr ⟨(query, table), hmem, by simp [hsql]⟩
  · exact List.mem_flatMap.mpr ⟨(query, table), hmem, by simp [hsql]⟩
  · intro run
    simp [executeAll, Function.comp_def]

/-- C10 witness: evaluated at microceph's registry entry and the first
entry of its base plan; both transports' registrations are present. -/
theorem claim_C10_witness :
    ({ cmd := "microceph cluster sql" ++ " " ++ jsonDumps schemaQuery,
       suggest_filename := "microceph cluster sql" ++ "_" ++ "schema",
       subdir := "microceph" } : CmdRequest) ∈
      run_batch_dqlite_queries "microceph" (registryCfg "microceph")
        (base_queries "microceph") (base_tables "microceph") :=
  (claim_C10 "microceph" (registryCfg "microceph") "microceph cluster sql"
    rfl (base_queries "microceph") (base_tables "microceph")
    schemaQuery "schema" (by decide)).2.1

/-! ## Claim C1 -/

/-- Suggested filenames of a zipped (query, name) registration batch are
exactly the name list (when the two lists have equal length). -/
theorem map_filename_zip (pkg : String) (mkCmd : String → String) :
    ∀ qs ns : List String, qs.length = ns.length →
      (((qs.zip ns).map (fun qn =>
          ({ cmd := mkCmd qn.1, suggest_filename := qn.2,
             subdir := pkg } : CmdRequest))).map
        (fun r => r.suggest_filename)) = ns
  | [], [], _ => rfl
  | [], _ :: _, h => by simp at h
  | _ :: _, [], h => by simp at h
  | q :: qs, n :: ns, h => by
    simp only [List.zip_cons_cons, List.map_cons]
    exact congrArg (n :: ·)
      (map_filename_zip pkg mkCmd qs ns (by simpa using h))

/-- The microk8s hook's suggested filenames on a readable topology file:
the three fixed names followed by one `.describe` name per extracted
address. -/
theorem microk8s_names (cluster err : String) :
    ((microk8s_collection "microk8s" (registryCfg "microk8s")
        (some cluster) err).2).map (fun r => r.suggest_filename) =
      (["\".cluster\"", "\".cluster\" -f json", "\".leader\""].map
        (fun query => "microk8s" ++ "_dqlite_" ++ query)) ++
      (findAddresses cluster).map
        (fun node => "microk8s" ++ "_dqlite_.describe_" ++ node) :=
  map_filename_zip "microk8s"
    (fun q => mk8s_dqlite_cmd ++ " " ++ q)
    (["\".cluster\"", "\".cluster\" -f json", "\".leader\""] ++
      (findAddresses cluster).map
        (fun node => "\".describe " ++ node ++ "\" -f json"))
    ((["\".cluster\"", "\".cluster\" -f json", "\".leader\""]).map
        (fun query => "microk8s" ++ "_dqlite_" ++ query) ++
      (findAddresses cluster).map
        (fun node => "microk8s" ++ "_dqlite_.describe_" ++ node))
    (by simp)

/-- C1 counterexample: a topology file listing the same peer address twice
makes the microk8s run suggest the same filename
(`microk8s_dqlite_.describe_1.2.3.4:5`) for two distinct `.describe`
registrations, so the run's suggested filenames are not pairwise unique. -/
theorem claim_C1_counterexample :
    "microk8s" ∈ packages ∧
    ¬ (allSuggestedNames "microk8s"
        (some "Address: 1.2.3.4:5\nAddress: 1.2.3.4:5") "").Nodup := by
  set_option maxRecDepth 100000 in decide

/-- C1 (amended): for every backend of the enumeration and every topology
file content, the run's suggested output filenames are pairwise unique
provided the addresses extracted from the topology file are themselves
pairwise distinct (the proviso only binds for microk8s, the sole backend
that reads the file; a file repeating an address breaks uniqueness, see the
counterexample). -/
theorem claim_C1_amended (pkg : String) (hpkg : pkg ∈ packages)
    (topology : Option String) (err : String)
    (hnodes : (extractedNodes pkg topology).Nodup) :
    (allSuggestedNames pkg topology err).Nodup := by
  set_option maxRecDepth 100000 in
  simp only [packages, List.mem_cons, List.mem_singleton,
    List.not_mem_nil, or_false] at hpkg
  rcases hpkg with rfl | rfl | rfl | rfl | rfl
  · rw [show allSuggestedNames "microceph" topology err =
        allSuggestedNames "microceph" none "" from rfl]
    decide
  · rw [show allSuggestedNames "microovn" topology err =
        allSuggestedNames "microovn" none "" from rfl]
    decide
  · rw [show allSuggestedNames "microcloud" topology err =
        allSuggestedNames "microcloud" none "" from rfl]
    decide
  · cases topology with
    | none =>
      rw [show allSuggestedNames "microk8s" none err =
          allSuggestedNames "microk8s" none "" from rfl]
      decide
    | some cluster =>
      simp only [extractedNodes, if_pos] at hnodes
      rw [show allSuggestedNames "microk8s" (some cluster) err =
          ("ls_" ++ "microk8s" ++ "_dqlite_dir") ::
            ((microk8s_collection "microk8s" (registryCfg "microk8s")
                (some cluster) err).2).map
              (fun r => r.suggest_filename) from rfl]
      rw [microk8s_names]
      rw [List.nodup_cons]
      constructor
      · intro hmem
        rcases List.mem_append.mp hmem with hfix | hdesc
        · exact absurd hfix (by decide)
        · obtain ⟨node, _, heq⟩ := List.mem_map.mp hdesc
          exact string_ne_append_of_take_ne
            ("microk8s" ++ "_dqlite_.describe_") node
            ("ls_" ++ "microk8s" ++ "_dqlite_dir") 1
            (by decide) (by decide) heq
      · refine List.Nodup.append (by decide) (hnodes.map ?_) ?_
        · intro a b hab
          exact string_append_cancel_left hab
        · intro a ha hmem
          obtain ⟨node, _, heq⟩ := List.mem_map.mp hmem
          have ha' := ha
          simp only [List.map_cons, List.map_nil, List.mem_cons,
            List.mem_singleton, List.not_mem_nil, or_false] at ha'
          rcases ha' with rfl | rfl | rfl
          · exact string_ne_append_of_take_ne
              ("microk8s" ++ "_dqlite_.describe_") node
              ("microk8s" ++ "_dqlite_" ++ "\".cluster\"") 17
              (by decide) (by decide) heq
          · exact string_ne_append_of_take_ne
              ("microk8s" ++ "_dqlite_.describe_") node
              ("microk8s" ++ "_dqlite_" ++ "\".cluster\" -f json") 17
              (by decide) (by decide) heq
          · exact string_ne_append_of_take_ne
              ("microk8s" ++ "_dqlite_.describe_") node
              ("microk8s" ++ "_dqlite_" ++ "\".leader\"") 17
              (by decide) (by decide) heq
  · rw [show allSuggestedNames "lxd" topology err =
        allSuggestedNames "lxd" none "" from rfl]
    decide

/-- C1 witness: the amended theorem evaluated at microceph (empty proviso)
and at microk8s with a two-distinct-address topology file. -/
theorem claim_C1_witness :
    (allSuggestedNames "microceph" none "").Nodup ∧
    (allSuggestedNames "microk8s"
        (some "Address: 10.0.0.1:7000\nAddress: 10.0.0.2:7000") "").Nodup :=
  ⟨claim_C1_amended "microceph" (by decide) none "" (by decide),
   claim_C1_amended "microk8s" (by decide)
     (some "Address: 10.0.0.1:7000\nAddress: 10.0.0.2:7000") ""
     (by set_option maxRecDepth 100000 in decide)⟩

/-! ## Claim C4 -/

/-- C4 counterexample: the CLI-wrapper transport suggests
`microceph cluster sql_schema` for microceph's schema query — a filename
that does not even contain `_dqlite_`, hence is not of the claimed
bit-exact form `<backend-or-cli-command>_dqlite_<label>` for any label. -/
theorem claim_C4_counterexample :
    ({ cmd := "microceph cluster sql" ++ " " ++ jsonDumps schemaQuery,
       suggest_filename := "microceph cluster sql" ++ "_" ++ "schema",
       subdir := "microceph" } : CmdRequest) ∈
      query_requests "microceph" none "" ∧
    ¬ ("_dqlite_".data <:+:
        ("microceph cluster sql" ++ "_" ++ "schema").data) := by
  set_option maxRecDepth 100000 in decide

/-- C4 (amended): every query-result registration carries the backend
identifier as its subdirectory, and its suggested filename is
transport-determined: `<backend>_dqlite_<label>` for the socket transport,
`<sql-cli-command>_<label>` (no `_dqlite_` infix) for the CLI-wrapper
transport — `<label>` being the query's plan label — while the divergent
backend's hook suggests `<backend>_dqlite_<q>` with `<q>` the verbatim
quoted query text (`".cluster"`, `".cluster" -f json`, `".leader"`) or
`.describe_<addr>` per extracted peer address. -/
theorem claim_C4_amended :
    (∀ (pkg : String) (cfg : BackendCfg) (queries tables : List String)
        (r : CmdRequest),
      r ∈ run_batch_dqlite_queries pkg cfg queries tables →
      r.subdir = pkg ∧ ∃ table ∈ tables,
        r.suggest_filename = pkg ++ "_dqlite_" ++ table ∨
        ∃ c, cfg.sql_cmd = some c ∧
          r.suggest_filename = c ++ "_" ++ table) ∧
    (∀ (pkg : String) (cfg : BackendCfg) (topology : Option String)
        (err : String) (r : CmdRequest),
      r ∈ (microk8s_collection pkg cfg topology err).2 →
      r.subdir = pkg ∧
        ((∃ q ∈ (["\".cluster\"", "\".cluster\" -f json",
            "\".leader\""] : List String),
            r.suggest_filename = pkg ++ "_dqlite_" ++ q) ∨
         (∃ node ∈ topology.elim ([] : List String) findAddresses,
            r.suggest_filename = pkg ++ "_dqlite_.describe_" ++ node))) := by
  constructor
  · intro pkg cfg queries tables r hr
    obtain ⟨⟨q, t⟩, hqt, hmem⟩ := List.mem_flatMap.mp hr
    have ht : t ∈ tables := (List.of_mem_zip hqt).2
    dsimp only at hmem
    cases hsql : cfg.sql_cmd with
    | none =>
      rw [hsql] at hmem
      simp only [List.mem_singleton, List.mem_cons, List.not_mem_nil,
        or_false] at hmem
      subst hmem
      exact ⟨rfl, t, ht, Or.inl rfl⟩
    | some c =>
      rw [hsql] at hmem
      simp only [List.mem_cons, List.mem_singleton, List.not_mem_nil,
        or_false] at hmem
      rcases hmem with rfl | rfl
      · exact ⟨rfl, t, ht, Or.inl rfl⟩
      · exact ⟨rfl, t, ht, Or.inr ⟨c, rfl, rfl⟩⟩
  · intro pkg cfg topology err r hr
    cases topology with
    | none =>
      obtain ⟨⟨q, nm⟩, hmem, rfl⟩ := List.mem_map.mp hr
      refine ⟨rfl, ?_⟩
      have hnm := (List.of_mem_zip hmem).2
      simp only [List.mem_map] at hnm
      obtain ⟨q', hq', rfl⟩ := hnm
      exact Or.inl ⟨q', hq', rfl⟩
    | some cluster =>
      obtain ⟨⟨q, nm⟩, hmem, rfl⟩ := List.mem_map.mp hr
      refine ⟨rfl, ?_⟩
      have hnm := (List.of_mem_zip hmem).2
      rcases List.mem_append.mp hnm with hfix | hdesc
      · simp only [List.mem_map] at hfix
        obtain ⟨q', hq', rfl⟩ := hfix
        exact Or.inl ⟨q', hq', rfl⟩
      · simp only [List.mem_map] at hdesc
        obtain ⟨node, hnode, rfl⟩ := hdesc
        exact Or.inr ⟨node, hnode, rfl⟩

/-- C4 witness: the amended theorem's transport part evaluated at lxd's
socket registration for the schema query, and its hook part at a microk8s
describe registration. -/
theorem claim_C4_witness :
    (({ cmd := curl_cmd (registryCfg "lxd") ++ " \x27" ++
          jsonDumpsObj (queryPayload "lxd" schemaQuery) ++ "\x27",
        suggest_filename := "lxd" ++ "_dqlite_" ++ "schema",
        subdir := "lxd" } : CmdRequest).subdir = "lxd" ∧
      ∃ table ∈ base_tables "lxd",
        ("lxd" ++ "_dqlite_" ++ "schema" : String) =
          "lxd" ++ "_dqlite_" ++ table ∨
        ∃ c, (registryCfg "lxd").sql_cmd = some c ∧
          ("lxd" ++ "_dqlite_" ++ "schema" : String) = c ++ "_" ++ table) :=
  claim_C4_amended.1 "lxd" (registryCfg "lxd") (base_queries "lxd")
    (base_tables "lxd") _ (by set_option maxRecDepth 100000 in decide)

/-! ## Claim C5 -/

theorem isPrefixOf_false_of_take_ne (k l X : List Char) (n : Nat)
    (hk : n ≤ k.length) (hl : n ≤ l.length) (hne : k.take n ≠ l.take n) :
    k.isPrefixOf (l ++ X) = false := by
  rw [← Bool.not_eq_true, List.isPrefixOf_iff_prefix]
  exact not_prefix_append X n hk hl hne

theorem tryKeys_build (keyData : List Char) (hkey : keyData ∈ credKeys)
    (X : List Char) : tryKeys (keyData ++ X) = some (keyData, X) := by
  have hpos : ∀ k : List Char, k.isPrefixOf (k ++ X) = true := fun k => by
    rw [List.isPrefixOf_iff_prefix]
    exact List.prefix_append _ _
  simp only [credKeys, List.mem_cons, List.mem_singleton,
    List.not_mem_nil, or_false] at hkey
  rcases hkey with rfl | rfl | rfl
  · simp [tryKeys, credKeys, List.find?_cons, hpos _, List.drop_left]
  · have hneg1 : ("certificate-authority-data".data).isPrefixOf
        ("client-certificate-data".data ++ X) = false :=
      isPrefixOf_false_of_take_ne _ _ X 2 (by decide) (by decide) (by decide)
    simp [tryKeys, credKeys, List.find?_cons, hneg1, hpos _, List.drop_left]
  · have hneg1 : ("certificate-authority-data".data).isPrefixOf
        ("client-key-data".data ++ X) = false :=
      isPrefixOf_false_of_take_ne _ _ X 2 (by decide) (by decide) (by decide)
    have hneg2 : ("client-certificate-data".data).isPrefixOf
        ("client-key-data".data ++ X) = false :=
      isPrefixOf_false_of_take_ne _ _ X 8 (by decide) (by decide) (by decide)
    simp [tryKeys, credKeys, List.find?_cons, hneg1, hneg2, hpos _,
      List.drop_left]


theorem matchCred_build
    (ws hash ws2 keyData ws3 rest : List Char)
    (hws : ∀ c ∈ ws, isPySpace c = true)
    (hhash : hash = [] ∨ hash = ['#'])
    (hws2 : ∀ c ∈ ws2, isPySpace c = true)
    (hhw : hash = [] → ws2 = [])
    (hkey : keyData ∈ credKeys)
    (hws3 : ∀ c ∈ ws3, isPySpace c = true)
    (hrest : ∀ c t, rest = c :: t → isPySpace c = false)
    (hne : rest ≠ []) :
    matchCred (ws ++ (hash ++ (ws2 ++ (keyData ++ (':' :: (ws3 ++ rest)))))) =
      some (ws, (hash ++ (ws2 ++ (keyData ++ (':' :: ws3))), rest)) := by
  have hkd : ∃ kc kt, keyData = kc :: kt ∧ isPySpace kc = false ∧ kc ≠ '#' := by
    simp only [credKeys, List.mem_cons, List.mem_singleton,
      List.not_mem_nil, or_false] at hkey
    rcases hkey with rfl | rfl | rfl
    · exact ⟨'c', _, rfl, by decide, by decide⟩
    · exact ⟨'c', _, rfl, by decide, by decide⟩
    · exact ⟨'c', _, rfl, by decide, by decide⟩
  obtain ⟨kc, kt, hkde, hkcs, hkch⟩ := hkd
  have hb : ∀ c t,
      (hash ++ (ws2 ++ (keyData ++ (':' :: (ws3 ++ rest))))) = c :: t →
      isPySpace c = false := by
    rcases hhash with rfl | rfl
    · have hw2 := hhw rfl
      subst hw2
      rw [hkde]
      intro c t h
      injection h with h1 _
      rw [← h1]
      exact hkcs
    · intro c t h
      injection h with h1 _
      rw [← h1]
      decide
  simp only [matchCred]
  rw [spanP_exact isPySpace ws _ hws hb]
  rcases hhash with rfl | rfl
  · have hw2 := hhw rfl
    subst hw2
    simp only [List.nil_append]
    rw [hkde]
    simp only [List.cons_append, List.head?_cons, List.tail_cons]
    rw [if_neg (by simp only [Option.some.injEq]; exact hkch)]
    simp only
    rw [show spanP isPySpace (kc :: (kt ++ (':' :: (ws3 ++ rest)))) =
        ([], kc :: (kt ++ (':' :: (ws3 ++ rest)))) from by
      simp [spanP, hkcs]]
    simp only
    rw [show kc :: (kt ++ (':' :: (ws3 ++ rest))) =
        keyData ++ (':' :: (ws3 ++ rest)) from by rw [hkde]; rfl]
    rw [tryKeys_build keyData hkey (':' :: (ws3 ++ rest))]
    simp only [List.head?_cons, List.tail_cons, Option.some.injEq,
      if_true, eq_self_iff_true]
    rw [spanP_exact isPySpace ws3 rest hws3 hrest]
    simp only
    rw [if_neg hne]
    simp [List.append_assoc, hkde]
  · simp only [List.cons_append, List.nil_append, List.head?_cons,
      List.tail_cons, Option.some.injEq, if_true, eq_self_iff_true]
    rw [spanP_exact isPySpace ws2 (keyData ++ (':' :: (ws3 ++ rest))) hws2 (by
      rw [hkde]
      intro c t h
      injection h with h1 _
      rw [← h1]
      exact hkcs)]
    simp only
    rw [tryKeys_build keyData hkey (':' :: (ws3 ++ rest))]
    simp only [List.head?_cons, List.tail_cons, Option.some.injEq,
      if_true, eq_self_iff_true]
    rw [spanP_exact isPySpace ws3 rest hws3 hrest]
    simp only
    rw [if_neg hne]
    simp [List.append_assoc]

/-- C5 counterexample: on the single-line credentials file
`certificate-authority-data: SECRET`, one application of the rule yields
`certificate-authority-data:  ******` and a second application yields
`certificate-authority-data:   ******` — the outputs differ (each pass
inserts one more space before the mask), so the rule is not idempotent. -/
theorem claim_C5_counterexample :
    subCredFile (subCredFile "certificate-authority-data: SECRET".data) ≠
      subCredFile "certificate-authority-data: SECRET".data ∧
    subCredFile "certificate-authority-data: SECRET".data =
      "certificate-authority-data:  ******".data ∧
    subCredFile (subCredFile "certificate-authority-data: SECRET".data) =
      "certificate-authority-data:   ******".data := by
  set_option maxRecDepth 100000 in decide

/-- C5 (amended): the credentials-file rule is not idempotent. On every
line of the protected shape (optional indentation, optional `#`, a
protected key, `:`, whitespace, then a value starting with a non-blank),
one application rewrites the line to group 1 followed by the mask
` ******`, and a second application re-matches the masked line — the
`:\s*` of group 1 absorbing the replacement's inserted blank — producing
group 1 followed by `  ******`, one space wider; the two outputs are never
equal. Lines the regex does not match are left unchanged (on those the
rule is trivially idempotent). -/
theorem claim_C5_amended
    (ws hash ws2 keyData ws3 rest : List Char)
    (hws : ∀ c ∈ ws, isPySpace c = true)
    (hhash : hash = [] ∨ hash = ['#'])
    (hws2 : ∀ c ∈ ws2, isPySpace c = true)
    (hhw : hash = [] → ws2 = [])
    (hkey : keyData ∈ credKeys)
    (hws3 : ∀ c ∈ ws3, isPySpace c = true)
    (hrest : ∀ c t, rest = c :: t → isPySpace c = false)
    (hne : rest ≠ []) :
    subCredLine (ws ++ (hash ++ (ws2 ++ (keyData ++ (':' :: (ws3 ++ rest)))))) =
      (hash ++ (ws2 ++ (keyData ++ (':' :: ws3)))) ++ " ******".data ∧
    subCredLine (subCredLine
        (ws ++ (hash ++ (ws2 ++ (keyData ++ (':' :: (ws3 ++ rest))))))) =
      (hash ++ (ws2 ++ (keyData ++ (':' :: ws3)))) ++ "  ******".data ∧
    subCredLine (subCredLine
        (ws ++ (hash ++ (ws2 ++ (keyData ++ (':' :: (ws3 ++ rest))))))) ≠
      subCredLine (ws ++ (hash ++ (ws2 ++ (keyData ++ (':' :: (ws3 ++ rest)))))) ∧
    (∀ l : List Char, matchCred l = none → subCredLine l = l) := by
  have h1 := matchCred_build ws hash ws2 keyData ws3 rest
    hws hhash hws2 hhw hkey hws3 hrest hne
  have e1 : subCredLine
      (ws ++ (hash ++ (ws2 ++ (keyData ++ (':' :: (ws3 ++ rest)))))) =
      (hash ++ (ws2 ++ (keyData ++ (':' :: ws3)))) ++ " ******".data := by
    rw [subCredLine, h1]
  have hshape :
      (hash ++ (ws2 ++ (keyData ++ (':' :: ws3)))) ++ " ******".data =
        [] ++ (hash ++ (ws2 ++ (keyData ++ (':' :: ((ws3 ++ [' ']) ++ "******".data))))) := by
    rw [show " ******".data = ' ' :: "******".data from rfl]
    simp [List.append_assoc]
  have h2 := matchCred_build [] hash ws2 keyData (ws3 ++ [' '])
    ("******".data)
    (by intro c hc; exact absurd hc (List.not_mem_nil c))
    hhash hws2 hhw hkey
    (by
      intro c hc
      rcases List.mem_append.mp hc with h | h
      · exact hws3 c h
      · simp only [List.mem_singleton] at h
        rw [h]
        decide)
    (by
      intro c t h
      injection h with hc _
      rw [← hc]
      decide)
    (by decide)
  have e2 : subCredLine (subCredLine
      (ws ++ (hash ++ (ws2 ++ (keyData ++ (':' :: (ws3 ++ rest))))))) =
      (hash ++ (ws2 ++ (keyData ++ (':' :: ws3)))) ++ "  ******".data := by
    rw [e1, hshape, subCredLine, h2]
    rw [show "  ******".data = ' ' :: ' ' :: "******".data from rfl,
      show " ******".data = ' ' :: "******".data from rfl]
    simp [List.append_assoc]
  refine ⟨e1, e2, ?_, ?_⟩
  · rw [e2, e1]
    intro h
    have h3 := List.append_cancel_left
      (by simpa [List.append_assoc] using h :
        (hash ++ (ws2 ++ (keyData ++ (':' :: ws3)))) ++ "  ******".data =
          (hash ++ (ws2 ++ (keyData ++ (':' :: ws3)))) ++ " ******".data)
    exact absurd h3 (by decide)
  · intro l hnone
    rw [subCredLine, hnone]

/-- C5 witness: the amended theorem evaluated on the line
`certificate-authority-data: X`. -/
theorem claim_C5_witness :
    subCredLine "certificate-authority-data: X".data =
      "certificate-authority-data: ".data ++ " ******".data ∧
    subCredLine (subCredLine "certificate-authority-data: X".data) =
      "certificate-authority-data: ".data ++ "  ******".data := by
  have h := claim_C5_amended [] [] [] "certificate-authority-data".data
    [' '] ['X']
    (by intro c hc; exact absurd hc (List.not_mem_nil c))
    (Or.inl rfl)
    (by intro c hc; exact absurd hc (List.not_mem_nil c))
    (fun _ => rfl)
    (by decide)
    (by intro c hc; simp only [List.mem_singleton] at hc; rw [hc]; decide)
    (by
      intro c t h
      have hc := (List.cons_eq_cons.mp h.symm).1
      rw [hc]
      decide)
    (by decide)
  exact ⟨h.1, h.2.1⟩

/-! ## Claim C6 -/

theorem dockerSubGo_nil (n : Nat) : dockerSubGo n [] = [] := by
  cases n <;> rfl

theorem findQuote_build (val suf : List Char) (hq : '"' ∉ val)
    (hn : '\n' ∉ val) : findQuote (val ++ '"' :: suf) = some (val, suf) := by
  induction val with
  | nil => simp [findQuote]
  | cons c t ih =>
    rw [List.cons_append, findQuote]
    rw [if_neg (fun h => hq (by rw [h]; exact List.mem_cons_self _ _)),
      if_neg (fun h => hn (by rw [h]; exact List.mem_cons_self _ _)),
      ih (fun h => hq (List.mem_cons_of_mem _ h))
        (fun h => hn (List.mem_cons_of_mem _ h))]
    rfl

theorem matchTail_build (mid val suf : List Char) (hmidEq : '=' ∉ mid)
    (hmidNl : '\n' ∉ mid) (hq : '"' ∉ val) (hn : '\n' ∉ val) :
    matchTail (mid ++ '=' :: (val ++ '"' :: suf)) = some (mid, suf) := by
  induction mid with
  | nil =>
    rw [List.nil_append, matchTail]
    rw [if_neg (by decide), if_pos rfl, findQuote_build val suf hq hn]
  | cons c t ih =>
    rw [List.cons_append, matchTail]
    rw [if_neg (fun h => hmidNl (by rw [h]; exact List.mem_cons_self _ _)),
      if_neg (fun h => hmidEq (by rw [h]; exact List.mem_cons_self _ _)),
      ih (fun h => hmidEq (List.mem_cons_of_mem _ h))
        (fun h => hmidNl (List.mem_cons_of_mem _ h))]
    rfl

theorem litAt_none (l : List Char) (h : litAt l = none) :
    ∀ k ∈ dockerLits, ¬ k <+: l := by
  intro k hk
  unfold litAt at h
  cases hf : dockerLits.find? (fun k => k.isPrefixOf l) with
  | some k' => rw [hf] at h; exact absurd h (by simp)
  | none =>
    have h2 := List.find?_eq_none.mp hf k hk
    simpa [List.isPrefixOf_iff_prefix] using h2

theorem litAt_some (l lit rest : List Char)
    (h : litAt l = some (lit, rest)) :
    lit ∈ dockerLits ∧ lit ++ rest = l := by
  unfold litAt at h
  cases hf : dockerLits.find? (fun k => k.isPrefixOf l) with
  | none => rw [hf] at h; exact absurd h (by simp)
  | some k =>
    rw [hf] at h
    injection h with h2
    have hlit : lit = k := (congrArg Prod.fst h2).symm
    have hsnd : l.drop k.length = rest := congrArg Prod.snd h2
    have hmem : k ∈ dockerLits := List.mem_of_find?_eq_some hf
    have h3 := List.find?_some hf
    simp only [List.isPrefixOf_iff_prefix] at h3
    obtain ⟨t, ht⟩ := h3
    subst hlit
    refine ⟨hmem, ?_⟩
    rw [← hsnd, ← ht, List.drop_left]

theorem litAt_length (l lit rest : List Char)
    (h : litAt l = some (lit, rest)) : rest.length < l.length := by
  obtain ⟨hmem, heq⟩ := litAt_some l lit rest h
  have hne : lit ≠ [] := by
    have hall : ∀ k ∈ dockerLits, k ≠ ([] : List Char) := by decide
    exact hall lit hmem
  have := congrArg List.length heq
  simp only [List.length_append] at this
  have : 0 < lit.length := List.length_pos.mpr hne
  omega

theorem findQuote_length : ∀ (l v r : List Char),
    findQuote l = some (v, r) → r.length < l.length := by
  intro l
  induction l with
  | nil => intro v r h; simp [findQuote] at h
  | cons c t ih =>
    intro v r h
    rw [findQuote] at h
    by_cases h1 : c = '"'
    · rw [if_pos h1] at h
      injection h with h2
      have hr : r = t := (congrArg Prod.snd h2).symm
      subst hr
      simp
    · rw [if_neg h1] at h
      by_cases h2 : c = '\n'
      · rw [if_pos h2] at h
        exact absurd h (by simp)
      · rw [if_neg h2] at h
        cases hfq : findQuote t with
        | none => rw [hfq] at h; exact absurd h (by simp)
        | some vr =>
          rw [hfq] at h
          injection h with h3
          have hr : r = vr.2 := (congrArg Prod.snd h3).symm
          subst hr
          have h4 := ih vr.1 vr.2 (by rw [hfq])
          simp only [List.length_cons]
          omega

theorem matchTail_length : ∀ (l vt r : List Char),
    matchTail l = some (vt, r) → r.length < l.length := by
  intro l
  induction l with
  | nil => intro vt r h; simp [matchTail] at h
  | cons c t ih =>
    intro vt r h
    rw [matchTail] at h
    by_cases h1 : c = '\n'
    · rw [if_pos h1] at h
      exact absurd h (by simp)
    · rw [if_neg h1] at h
      by_cases h2 : c = '='
      · rw [if_pos h2] at h
        cases hfq : findQuote t with
        | none =>
          rw [hfq] at h
          cases hmt : matchTail t with
          | none => rw [hmt] at h; exact absurd h (by simp)
          | some vtr =>
            rw [hmt] at h
            injection h with h3
            have hr : r = vtr.2 := (congrArg Prod.snd h3).symm
            subst hr
            have h4 := ih vtr.1 vtr.2 (by rw [hmt])
            simp only [List.length_cons]
            omega
        | some vr =>
          rw [hfq] at h
          injection h with h3
          have hr : r = vr.2 := (congrArg Prod.snd h3).symm
          subst hr
          have h4 := findQuote_length t vr.1 vr.2 (by rw [hfq])
          simp only [List.length_cons]
          omega
      · rw [if_neg h2] at h
        cases hmt : matchTail t with
        | none => rw [hmt] at h; exact absurd h (by simp)
        | some vtr =>
          rw [hmt] at h
          injection h with h3
          have hr : r = vtr.2 := (congrArg Prod.snd h3).symm
          subst hr
          have h4 := ih vtr.1 vtr.2 (by rw [hmt])
          simp only [List.length_cons]
          omega

theorem dockerSubGo_congr : ∀ (len : Nat) (l : List Char),
    l.length ≤ len → ∀ n m : Nat, l.length ≤ n → l.length ≤ m →
    dockerSubGo n l = dockerSubGo m l := by
  intro len
  induction len with
  | zero =>
    intro l hl n m _ _
    have : l = [] := List.eq_nil_of_length_eq_zero (Nat.le_zero.mp hl)
    subst this
    rw [dockerSubGo_nil, dockerSubGo_nil]
  | succ len ih =>
    intro l hl n m hn hm
    cases l with
    | nil => rw [dockerSubGo_nil, dockerSubGo_nil]
    | cons c t =>
      simp only [List.length_cons] at hl hn hm
      obtain ⟨n', rfl⟩ : ∃ n', n = n' + 1 := ⟨n - 1, by omega⟩
      obtain ⟨m', rfl⟩ : ∃ m', m = m' + 1 := ⟨m - 1, by omega⟩
      simp only [dockerSubGo]
      cases hla : litAt (c :: t) with
      | none =>
        simp only
        rw [ih t (by omega) n' m' (by omega) (by omega)]
      | some litrest =>
        obtain ⟨lit, rest⟩ := litrest
        simp only
        cases hmt : matchTail rest with
        | none =>
          simp only
          rw [ih t (by omega) n' m' (by omega) (by omega)]
        | some vtr =>
          obtain ⟨vt, r⟩ := vtr
          simp only
          have h1 := litAt_length _ _ _ hla
          have h2 := matchTail_length _ _ _ hmt
          simp only [List.length_cons] at h1
          rw [ih r (by omega) n' m' (by omega) (by omega)]

theorem dockerSubGo_eq_dockerSub (n : Nat) (l : List Char)
    (h : l.length ≤ n) : dockerSubGo n l = dockerSub l :=
  dockerSubGo_congr l.length l le_rfl n l.length h le_rfl

/-- C6 counterexample: the collected `docker inspect` output token
`Password=hunter2"` has a key containing `pass` case-insensitively (per the
claim), yet the rule leaves it untouched — the alternation only matches
all-lowercase `pass|key|secret` or all-uppercase `PASS|KEY|SECRET`, and
`Password` contains neither — so `hunter2` survives redaction. -/
theorem claim_C6_counterexample :
    dockerPostprocCmdOutput "docker inspect app1" "Password=hunter2\"".data =
      "Password=hunter2\"".data ∧
    "hunter2".data <:+: "Password=hunter2\"".data ∧
    "pass".data <:+: ("Password=hunter2\"".data.map Char.toLower) := by
  decide

/-- C6 (amended): for every collected command output beginning with a
`key=value"` token whose key contains one of the literal substrings
`pass`, `key`, `secret` (all-lowercase) or `PASS`, `KEY`, `SECRET`
(all-uppercase) — mixed-case keys are not matched — the rule replaces the
token's value with the fixed mask `********` and continues scanning the
remainder of the output. (Side conditions: the key holds no `=`/newline
and the value no `"`/newline, which is what makes the text a single
`key=value"` token.) -/
theorem claim_C6_amended (keyPart val suf : List Char)
    (hlit : ∃ k ∈ dockerLits, k <:+: keyPart)
    (hkeyEq : '=' ∉ keyPart) (hkeyNl : '\n' ∉ keyPart)
    (hvalQ : '"' ∉ val) (hvalNl : '\n' ∉ val) :
    dockerSub (keyPart ++ '=' :: (val ++ '"' :: suf)) =
      keyPart ++ '=' :: ("********".data ++ '"' :: dockerSub suf) := by
  induction keyPart with
  | nil =>
    obtain ⟨k, hk, hinf⟩ := hlit
    rw [List.infix_nil] at hinf
    subst hinf
    exact absurd hk (by decide)
  | cons c k' ih =>
    rw [show (c :: k') ++ '=' :: (val ++ '"' :: suf) =
        c :: (k' ++ '=' :: (val ++ '"' :: suf)) from rfl]
    rw [dockerSub]
    simp only [List.length_cons]
    rw [dockerSubGo]
    cases hla : litAt (c :: (k' ++ '=' :: (val ++ '"' :: suf))) with
    | none =>
      simp only
      rw [dockerSubGo_eq_dockerSub _ _ le_rfl]
      have hlit' : ∃ k ∈ dockerLits, k <:+: k' := by
        obtain ⟨k, hk, hinf⟩ := hlit
        rcases List.infix_cons_iff.mp hinf with hpre | hinf'
        · exfalso
          have hpre2 : k <+: c :: (k' ++ '=' :: (val ++ '"' :: suf)) := by
            rw [show c :: (k' ++ '=' :: (val ++ '"' :: suf)) =
                (c :: k') ++ '=' :: (val ++ '"' :: suf) from rfl]
            exact hpre.trans (List.prefix_append _ _)
          exact litAt_none _ hla k hk hpre2
        · exact ⟨k, hk, hinf'⟩
      rw [ih hlit' (fun h => hkeyEq (List.mem_cons_of_mem _ h))
        (fun h => hkeyNl (List.mem_cons_of_mem _ h))]
      rfl
    | some litrest =>
      obtain ⟨lit, rest0⟩ := litrest
      simp only
      obtain ⟨hlitmem, hliteq⟩ := litAt_some _ _ _ hla
      rw [show c :: (k' ++ '=' :: (val ++ '"' :: suf)) =
          (c :: k') ++ '=' :: (val ++ '"' :: suf) from rfl] at hliteq
      have hlitlen : lit.length ≤ (c :: k').length := by
        by_contra hgt
        push_neg at hgt
        have h1 : (lit ++ rest0)[(c :: k').length]? =
            lit[(c :: k').length]? := List.getElem?_append_left hgt
        have h2 : ((c :: k') ++ '=' :: (val ++ '"' :: suf))[(c :: k').length]? =
            some '=' := by
          rw [List.getElem?_append_right le_rfl]
          simp
        rw [hliteq, h2] at h1
        have hmem : '=' ∈ lit := List.getElem?_mem h1.symm
        have hno : ∀ k ∈ dockerLits, '=' ∉ k := by decide
        exact hno lit hlitmem hmem
      have htake : lit = (c :: k').take lit.length := by
        have h3 := congrArg (List.take lit.length) hliteq
        rw [List.take_left, List.take_append_of_le_length hlitlen] at h3
        exact h3
      have hsplit : c :: k' = lit ++ (c :: k').drop lit.length := by
        conv_lhs => rw [← List.take_append_drop lit.length (c :: k')]
        rw [← htake]
      have hrest0 : rest0 =
          (c :: k').drop lit.length ++ '=' :: (val ++ '"' :: suf) := by
        have h4 : lit ++ rest0 =
            lit ++ ((c :: k').drop lit.length ++
              '=' :: (val ++ '"' :: suf)) := by
          rw [hliteq]
          conv_lhs => rw [hsplit]
          rw [List.append_assoc]
        exact List.append_cancel_left h4
      have hk2sub : ∀ x ∈ (c :: k').drop lit.length, x ∈ c :: k' :=
        fun x hx => List.drop_subset _ _ hx
      have hmt := matchTail_build ((c :: k').drop lit.length) val suf
        (fun h => hkeyEq (hk2sub _ h)) (fun h => hkeyNl (hk2sub _ h))
        hvalQ hvalNl
      rw [hrest0, hmt]
      simp only
      rw [dockerSubGo_eq_dockerSub _ _ (by
        simp only [List.length_append, List.length_cons]
        omega)]
      rw [← hsplit]

/-- C6 witness: the amended theorem evaluated on the docstring's own
example token `mypassword=supersecret"`. -/
theorem claim_C6_witness :
    dockerSub "mypassword=supersecret\"".data =
      "mypassword=********\"".data := by
  exact claim_C6_amended "mypassword".data "supersecret".data []
    ⟨"pass".data, by decide, by decide⟩
    (by decide) (by decide) (by decide) (by decide)


/-! ## Claim C7 -/

theorem splitLines_single (l : List Char) (h : '\n' ∉ l) :
    splitLines l = [l] := by
  induction l with
  | nil => rfl
  | cons c t ih =>
    rw [splitLines]
    rw [if_neg (fun hc => h (by rw [hc]; exact List.mem_cons_self _ _))]
    rw [ih (fun hm => h (List.mem_cons_of_mem _ hm))]

theorem joinLines_single (l : List Char) : joinLines [l] = l := by
  simp [joinLines, List.intercalate]

/-- Structure of a line matched by the ceph config regex: the protected
key, whitespace, `=`, whitespace, then the (possibly empty) value starting
with a non-blank; `cephSubLine` rewrites such a line to group 1 followed by
the nine-character mask. -/
theorem cephSubLine_build (ws1 ws2 v : List Char)
    (hws1 : ∀ c ∈ ws1, isPySpace c = true)
    (hws2 : ∀ c ∈ ws2, isPySpace c = true)
    (hv : ∀ c t, v = c :: t → isPySpace c = false) :
    cephSubLine (cephKey ++ (ws1 ++ ('=' :: (ws2 ++ v)))) =
      (cephKey ++ ws1 ++ '=' :: ws2) ++ "*********".data := by
  have hpre : cephKey.isPrefixOf
      (cephKey ++ (ws1 ++ ('=' :: (ws2 ++ v)))) = true := by
    rw [List.isPrefixOf_iff_prefix]
    exact List.prefix_append _ _
  rw [cephSubLine, matchCephLine, if_pos hpre, List.drop_left]
  rw [spanP_exact isPySpace ws1 ('=' :: (ws2 ++ v)) hws1 (by
    intro c t hct
    injection hct with h1 _
    rw [← h1]
    decide)]
  simp only [List.head?_cons, List.tail_cons, Option.some.injEq,
    if_true, eq_self_iff_true]
  rw [spanP_exact isPySpace ws2 v hws2 hv]

/-- C7 counterexample: `CephCommon.postproc` registers only the
file-targeted rule for `/etc/ceph/ceph.conf`; collected command outputs —
in particular a config-query result — pass the redaction stage unchanged,
so a result row holding the key `rgw keystone admin password` with value
`hunter2` is persisted with the literal `hunter2` (even though the rule's
regex itself would have masked that very line, third conjunct). -/
theorem claim_C7_counterexample :
    cephPostprocCmdOutput
        ("microceph " ++
          "cluster sql \x27SELECT * FROM config WHERE key NOT LIKE \"%keyring%\"\x27")
        "rgw keystone admin password = hunter2".data =
      "rgw keystone admin password = hunter2".data ∧
    "hunter2".data <:+: "rgw keystone admin password = hunter2".data ∧
    cephSubLine "rgw keystone admin password = hunter2".data =
      "rgw keystone admin password = *********".data := by
  refine ⟨rfl, by decide, by decide⟩

/-- C7 (amended): the redaction applies to the copied config file, not to
command outputs. A copied `/etc/ceph/ceph.conf` consisting of the line
`rgw keystone admin password = <value>` is persisted as the key and
separator followed by the fixed mask `*********` (so `hunter2` never
survives in the file, see the witness); every collected command output —
config-query results included — passes the redaction stage unchanged. -/
theorem claim_C7_amended (v : List Char) (hnl : '\n' ∉ v)
    (hv : ∀ c t, v = c :: t → isPySpace c = false) :
    cephPostprocFile "/etc/ceph/ceph.conf"
        ("rgw keystone admin password = ".data ++ v) =
      "rgw keystone admin password = *********".data ∧
    (∀ (cmdName : String) (out : List Char),
      cephPostprocCmdOutput cmdName out = out) := by
  refine ⟨?_, fun _ _ => rfl⟩
  rw [cephPostprocFile, if_pos rfl, subLines]
  have hnl2 : '\n' ∉ "rgw keystone admin password = ".data ++ v := by
    intro hm
    rcases List.mem_append.mp hm with hm1 | hm2
    · exact absurd hm1 (by decide)
    · exact hnl hm2
  rw [splitLines_single _ hnl2, List.map_cons, List.map_nil, joinLines_single]
  rw [show "rgw keystone admin password = ".data ++ v =
      cephKey ++ ([' '] ++ ('=' :: ([' '] ++ v))) from rfl]
  rw [cephSubLine_build [' '] [' '] v
    (by intro c hc; simp only [List.mem_singleton] at hc; rw [hc]; decide)
    (by intro c hc; simp only [List.mem_singleton] at hc; rw [hc]; decide)
    hv]
  decide

/-- C7 witness: the amended theorem evaluated at the value `hunter2`; the
masked file line contains no `hunter2`. -/
theorem claim_C7_witness :
    cephPostprocFile "/etc/ceph/ceph.conf"
        ("rgw keystone admin password = ".data ++ "hunter2".data) =
      "rgw keystone admin password = *********".data ∧
    ¬ ("hunter2".data <:+: "rgw keystone admin password = *********".data) :=
  ⟨(claim_C7_amended "hunter2".data (by decide)
      (by
        intro c t h
        injection h with h1 _
        rw [← h1]
        decide)).1,
   by decide⟩
